import Mathlib

set_option linter.unusedVariables false

/-!
Shallow embedding of `lib/ansible/modules/cloud/docker/docker_network.py`
(the `docker_network` Ansible module): the CIDR classifier, the driver-option
normalizer, the configuration comparator, the membership logic and the
present/absent reconciliation passes of `DockerNetworkManager`, together with
theorems checking the module's natural-language specification against it.
-/

namespace DockerNetwork

/-- A Python exception raised by the embedded code. -/
inductive PyErr where
  | typeError (msg : String)
  | valueError (msg : String)
  | keyError (msg : String)
  | notFound (msg : String)
  deriving DecidableEq, Repr

/-- How a pass ends abnormally: `fail` models `client.fail` (a clean module
failure with a message), `crash` models an uncaught Python exception. -/
inductive Abort where
  | fail (msg : String)
  | crash (e : PyErr)
  deriving DecidableEq, Repr

deriving instance DecidableEq for Except

/-! ### CIDR classification (lines 298-315)

`CIDR_IPV4 = ^([0-9]{1,3}\.){3}[0-9]{1,3}/([0-9]|[1-2][0-9]|3[0-2])$`
`CIDR_IPV6 = ^[0-9a-fA-F:]+/([0-9]|[1-9][0-9]|1[0-2][0-9])$`

The regexes are hand-compiled to deterministic matchers on `List Char`.
Both patterns are deterministic: every `{1,3}`/`+` repetition is over a
character class that excludes the character that must follow it (`.`, `/`),
so maximal-munch scanning is equivalent to the backtracking semantics. -/

/-- the character class `[0-9]` (ASCII 48-57). -/
def isDigit (c : Char) : Bool := 48 ≤ c.toNat && c.toNat ≤ 57

/-- the character class `[0-9a-fA-F:]` (`:` is ASCII 58). -/
def isHexColon (c : Char) : Bool :=
  isDigit c || (97 ≤ c.toNat && c.toNat ≤ 102) || (65 ≤ c.toNat && c.toNat ≤ 70)
    || c.toNat == 58

/-- `[0-9]{1,3}`: consume the maximal digit run, require its length in 1..3. -/
def chompQuad (l : List Char) : Option (List Char) :=
  let g := l.takeWhile isDigit
  if 1 ≤ g.length ∧ g.length ≤ 3 then some (l.dropWhile isDigit) else none

/-- consume one expected literal character. -/
def expect (c : Char) : List Char → Option (List Char)
  | [] => none
  | x :: r => if x = c then some r else none

/-- the IPv4 prefix-length alternation `[0-9]|[1-2][0-9]|3[0-2]`, which must
consume the whole remaining input (it is followed by `$`); `1`, `2`, `3`
are ASCII 49, 50, 51 and `0` is 48. -/
def prefix32 : List Char → Bool
  | [c] => isDigit c
  | [c₁, c₂] =>
      ((49 ≤ c₁.toNat && c₁.toNat ≤ 50) && isDigit c₂)
        || ((c₁.toNat == 51) && (48 ≤ c₂.toNat && c₂.toNat ≤ 50))
  | _ => false

/-- the IPv6 prefix-length alternation `[0-9]|[1-9][0-9]|1[0-2][0-9]`. -/
def prefix129 : List Char → Bool
  | [c] => isDigit c
  | [c₁, c₂] => (49 ≤ c₁.toNat && c₁.toNat ≤ 57) && isDigit c₂
  | [c₁, c₂, c₃] => (c₁.toNat == 49) && (48 ≤ c₂.toNat && c₂.toNat ≤ 50) && isDigit c₃
  | _ => false

/-- body of `CIDR_IPV4` up to (not including) the trailing `$`. -/
def matchIPv4Core (l : List Char) : Bool :=
  match ((((((chompQuad l).bind (expect '.')).bind chompQuad).bind
      (expect '.')).bind chompQuad).bind (expect '.')).bind chompQuad with
  | none => false
  | some r =>
    match expect '/' r with
    | none => false
    | some pre => prefix32 pre

/-- body of `CIDR_IPV6` up to (not including) the trailing `$`: a non-empty
maximal `[0-9a-fA-F:]+` run, a literal `/`, then the prefix alternation. -/
def matchIPv6Core (l : List Char) : Bool :=
  match expect '/' (l.dropWhile isHexColon) with
  | some p => !(l.takeWhile isHexColon).isEmpty && prefix129 p
  | none => false

/-- Python `re` semantics of a pattern ending in `$` used via `re.match`:
the body must match the whole string, or the whole string minus one
trailing newline. -/
def dollarMatch (core : List Char → Bool) (l : List Char) : Bool :=
  core l || (if l.getLast? = some '\n' then core l.dropLast else false)

/-- `get_ip_version` (lines 302-315). The argument is the raw Python value of
the subnet: `none` models Python `None`, on which `re.match` raises
`TypeError` before any pattern is tried; a string that matches neither
pattern raises the `ValueError` built at line 315. -/
def get_ip_version : Option String → Except PyErr String
  | none => .error (.typeError "expected string or bytes-like object")
  | some cidr =>
    if dollarMatch matchIPv4Core cidr.data then .ok "ipv4"
    else if dollarMatch matchIPv6Core cidr.data then .ok "ipv6"
    else .error (.valueError ("\"" ++ cidr ++ "\" is not a valid CIDR"))

/-! ### Driver-option normalization (lines 318-331) -/

/-- A raw Python scalar, as it can arrive in the `driver_options` mapping. -/
inductive PyVal where
  | pybool (b : Bool)
  | pystr (s : String)
  | pyint (n : Int)
  deriving DecidableEq, Repr

/-- Python `str(v)` on the scalars above. -/
def pyStr : PyVal → String
  | .pybool true => "True"
  | .pybool false => "False"
  | .pystr s => s
  | .pyint n => toString n

/-- the per-value conversion of `get_driver_options`: `True`/`False` become
the literal strings `"true"`/`"false"`, everything else goes through `str`. -/
def driverOptValue : PyVal → String
  | .pybool true => "true"
  | .pybool false => "false"
  | v => pyStr v

/-- Python dict assignment `d[k] = v` on an insertion-ordered dict: an
existing key keeps its position and gets the new value, a new key is
appended. -/
def dictSet (k v : String) : List (String × String) → List (String × String)
  | [] => [(k, v)]
  | (k₀, v₀) :: rest => if k₀ = k then (k₀, v) :: rest else (k₀, v₀) :: dictSet k v rest

/-- `get_driver_options` (lines 318-331): stringify every key, render boolean
values as `"true"`/`"false"`, stringify the rest; `None` yields `{}`. -/
def get_driver_options : Option (List (PyVal × PyVal)) → List (String × String)
  | none => []
  | some l => l.foldl (fun acc kv => dictSet (pyStr kv.1) (driverOptValue kv.2) acc) []

/-! ### Observed state and desired parameters -/

/-- A JSON-ish value sitting in an observed IPAM pool or compared against a
desired pool field: a string or a hostname-to-IP mapping. -/
inductive JVal where
  | jstr (s : String)
  | jdict (m : List (String × String))
  deriving DecidableEq, Repr

/-- Python `==` on string-to-string dicts: key-set and value equality,
insensitive to insertion order. -/
def strDictEq (a b : List (String × String)) : Bool :=
  a.all (fun kv => b.lookup kv.1 == some kv.2) && b.all (fun kv => a.lookup kv.1 == some kv.2)

/-- Python `==` on the values compared by the IPAM per-key loop. -/
def pyEqJ : JVal → JVal → Bool
  | .jstr a, .jstr b => a == b
  | .jdict a, .jdict b => strDictEq a b
  | _, _ => false

/-- One entry of the `ipam_config` list parameter. Because of the recursive
argument_spec all four suboptions are always present, with value `None`
when unspecified (see the comment at lines 481-482 of the source). -/
structure IpamPoolParam where
  subnet : Option String
  iprange : Option String
  gateway : Option String
  aux_addresses : Option (List (String × String))
  deriving DecidableEq, Repr

/-- `ipam_config.items()` for a desired pool, in argument_spec insertion
order. -/
def poolItems (p : IpamPoolParam) : List (String × Option JVal) :=
  [("subnet", p.subnet.map .jstr), ("iprange", p.iprange.map .jstr),
   ("gateway", p.gateway.map .jstr), ("aux_addresses", p.aux_addresses.map .jdict)]

/-- An observed IPAM pool: a JSON object with server-cased keys such as
`"Subnet"`, `"Gateway"`. -/
abbrev ObservedPool := List (String × JVal)

/-- the observed `net['IPAM']` object. -/
structure Ipam where
  driver : String
  config : Option (List ObservedPool)
  deriving DecidableEq, Repr

/-- An observed network as returned by `client.inspect_network`. `containers`
holds the `Name` of each entry of `net['Containers'].values()`; `none`
models a `None`/absent field throughout. -/
structure Network where
  driver : String
  options : Option (List (String × String))
  ipam : Option Ipam
  enableIPv6 : Option Bool
  internal : Option Bool
  scope : Option String
  attachable : Option Bool
  containers : Option (List String)
  deriving DecidableEq, Repr

/-- `container_names_in_network` (lines 294-295), applied to the raw Python
value: on `None` the subscript `network['Containers']` raises `TypeError`;
a falsy (`None` or empty) `Containers` yields `[]`. -/
def container_names_in_network : Option Network → Except PyErr (List String)
  | none => .error (.typeError "NoneType object is not subscriptable")
  | some n => .ok (n.containers.getD [])

/-- `state` parameter. -/
inductive StateParam where
  | statePresent
  | stateAbsent
  deriving DecidableEq, Repr

/-- `TaskParameters` as they stand after `DockerNetworkManager.__init__` has
run lines 405-413 (connected seeding, ipam_options promotion, driver-option
normalization). -/
structure Params where
  network_name : String
  connected : List String
  state : StateParam
  driver : String
  driver_options : List (String × String)
  force : Bool
  appends : Bool
  ipam_driver : Option String
  ipam_config : Option (List IpamPoolParam)
  enable_ipv6 : Option Bool
  internal : Option Bool
  debug : Bool
  scope : Option String
  attachable : Option Bool
  deriving DecidableEq, Repr

/-- A recorded difference: `DifferenceTracker.add(name, parameter, active)`. -/
inductive Val where
  | vStr (s : String)
  | vOStr (o : Option String)
  | vBool (b : Bool)
  | vOBool (o : Option Bool)
  | vDict (m : List (String × String))
  | vODict (o : Option (List (String × String)))
  | vOIpam (o : Option Ipam)
  | vPools (l : List IpamPoolParam)
  | vOPoolList (o : Option (List ObservedPool))
  | vJ (j : JVal)
  | vOJ (o : Option JVal)
  deriving DecidableEq, Repr

structure Difference where
  name : String
  parameter : Val
  active : Val
  deriving DecidableEq, Repr

/-! ### `has_different_config` (lines 432-514), block by block in source
order. Each block is the list of differences the corresponding `if` adds to
the tracker. -/

/-- lines 441-444: driver, compared only when truthy. -/
def driverDiff (p : Params) (net : Network) : List Difference :=
  if p.driver ≠ "" ∧ p.driver ≠ net.driver then
    [⟨"driver", .vStr p.driver, .vStr net.driver⟩] else []

/-- lines 445-455: driver options, compared only when non-empty; a falsy
observed `Options` is one difference for the whole mapping, otherwise a
per-key comparison. -/
def driverOptionsDiffs (p : Params) (net : Network) : List Difference :=
  if p.driver_options = [] then []
  else if net.options.getD [] = [] then
    [⟨"driver_options", .vDict p.driver_options, .vODict net.options⟩]
  else
    p.driver_options.foldl (fun acc kv =>
      if (net.options.getD []).lookup kv.1 == some kv.2 then acc
      else acc ++ [⟨"driver_options." ++ kv.1, .vStr kv.2,
                    .vOStr ((net.options.getD []).lookup kv.1)⟩]) []

/-- lines 457-461: IPAM driver, compared only when truthy. -/
def ipamDriverDiff (p : Params) (net : Network) : List Difference :=
  match p.ipam_driver with
  | none => []
  | some d =>
    if d = "" then []
    else match net.ipam with
      | none => [⟨"ipam_driver", .vStr d, .vOIpam none⟩]
      | some ip =>
        if ip.driver ≠ d then [⟨"ipam_driver", .vStr d, .vOIpam (some ip)⟩] else []

/-- A `ValueError` raised inside the `try` of lines 471-477 is caught and
routed to `client.fail`; any other exception escapes the handler. -/
def liftTryErr : PyErr → Abort
  | .valueError m => .fail m
  | e => .crash e

/-- `get_ip_version(net_ipam_config['Subnet'])`: a missing key raises
`KeyError`, a dict value raises `TypeError` inside `re.match`. -/
def obsSubnetVersion (op : ObservedPool) : Except PyErr String :=
  match op.lookup "Subnet" with
  | none => .error (.keyError "Subnet")
  | some (.jdict _) => .error (.typeError "expected string or bytes-like object")
  | some (.jstr s) => get_ip_version (some s)

/-- the scan of lines 473-475: starting from `net_config = dict()`, every
observed pool of the desired pool's IP family overwrites `net_config`, so
the last one scanned wins. -/
def scanLoop (v : String) : ObservedPool → List ObservedPool → Except Abort ObservedPool
  | cur, [] => .ok cur
  | cur, op :: rest =>
    match obsSubnetVersion op with
    | .error e => .error (liftTryErr e)
    | .ok w => scanLoop v (if v = w then op else cur) rest

/-- lines 470-477: classify the desired pool's subnet, then scan the observed
pools for the matching family. -/
def scanPool (sub : Option String) (obsPools : List ObservedPool) : Except Abort ObservedPool :=
  match get_ip_version sub with
  | .error e => .error (liftTryErr e)
  | .ok v => scanLoop v [] obsPools

/-- the case-insensitive key probe of lines 484-488: the first observed key
whose lower-casing equals the desired key. -/
def findCamel (key : String) (ncfg : ObservedPool) : Option (String × JVal) :=
  ncfg.find? (fun kv => key == kv.1.toLower)

/-- the body of the per-key loop of lines 479-492, one desired `(key, value)`
at a time: `None` values are skipped; otherwise the value is compared (with
Python `!=`) against the case-insensitively matched observed field. -/
def poolKeyLoop (idx : Nat) (ncfg : ObservedPool) :
    List (String × Option JVal) → List Difference
  | [] => []
  | (key, none) :: rest => poolKeyLoop idx ncfg rest
  | (key, some v) :: rest =>
    (match findCamel key ncfg with
     | none => [⟨"ipam_config[" ++ toString idx ++ "]." ++ key, .vJ v, .vOJ none⟩]
     | some nk =>
       if pyEqJ nk.2 v then []
       else [⟨"ipam_config[" ++ toString idx ++ "]." ++ key, .vJ v, .vOJ (some nk.2)⟩])
      ++ poolKeyLoop idx ncfg rest

/-- lines 479-492: per-key comparison of one desired pool against the matched
observed pool. -/
def poolKeyDiffs (idx : Nat) (pool : IpamPoolParam) (ncfg : ObservedPool) : List Difference :=
  poolKeyLoop idx ncfg (poolItems pool)

/-- the `enumerate(self.parameters.ipam_config)` loop of lines 469-492. -/
def ipamPoolsLoop (obsPools : List ObservedPool) : Nat → List IpamPoolParam →
    Except Abort (List Difference)
  | _, [] => .ok []
  | idx, pool :: rest =>
    match scanPool pool.subnet obsPools with
    | .error e => .error e
    | .ok ncfg =>
      match ipamPoolsLoop obsPools (idx + 1) rest with
      | .error e => .error e
      | .ok ds => .ok (poolKeyDiffs idx pool ncfg ++ ds)

/-- lines 463-492: the whole `ipam_config` block, entered only when the
desired pool list is set and non-empty. -/
def ipamConfigDiffs (p : Params) (net : Network) : Except Abort (List Difference) :=
  match p.ipam_config with
  | none => .ok []
  | some pools =>
    if pools = [] then .ok []
    else match net.ipam with
      | none => .ok [⟨"ipam_config", .vPools pools, .vOPoolList none⟩]
      | some ip =>
        if ip.config.getD [] = [] then
          .ok [⟨"ipam_config", .vPools pools, .vOPoolList ip.config⟩]
        else ipamPoolsLoop (ip.config.getD []) 0 pools

/-- lines 494-497. -/
def enableIPv6Diff (p : Params) (net : Network) : List Difference :=
  match p.enable_ipv6 with
  | none => []
  | some b =>
    if b ≠ net.enableIPv6.getD false then
      [⟨"enable_ipv6", .vBool b, .vBool (net.enableIPv6.getD false)⟩] else []

/-- lines 499-502. -/
def internalDiff (p : Params) (net : Network) : List Difference :=
  match p.internal with
  | none => []
  | some b =>
    if b ≠ net.internal.getD false then
      [⟨"internal", .vBool b, .vOBool net.internal⟩] else []

/-- lines 504-507. -/
def scopeDiff (p : Params) (net : Network) : List Difference :=
  match p.scope with
  | none => []
  | some sc =>
    if net.scope ≠ some sc then [⟨"scope", .vStr sc, .vOStr net.scope⟩] else []

/-- lines 509-512. -/
def attachableDiff (p : Params) (net : Network) : List Difference :=
  match p.attachable with
  | none => []
  | some b =>
    if b ≠ net.attachable.getD false then
      [⟨"attachable", .vBool b, .vOBool net.attachable⟩] else []

/-- `has_different_config` (lines 432-514): the blocks in source order feed
one tracker; the result is `(not differences.empty, differences)`. Only the
`ipam_config` block can abort (via `client.fail` or an uncaught exception),
and an abort discards everything. -/
def has_different_config (p : Params) (net : Network) :
    Except Abort (Bool × List Difference) :=
  match ipamConfigDiffs p net with
  | .error e => .error e
  | .ok ipamDs =>
    let ds := driverDiff p net ++ driverOptionsDiffs p net ++ ipamDriverDiff p net
      ++ ipamDs ++ enableIPv6Diff p net ++ internalDiff p net ++ scopeDiff p net
      ++ attachableDiff p net
    .ok (!ds.isEmpty, ds)

/-! ### The reconciliation pass (`DockerNetworkManager`, lines 389-635)

The remote side is modeled as the state of the one network the pass is
about: `Option Network` (absent or present). Mutating collaborator calls
are recorded in an event trace. `client.create_network` followed by the
re-inspect of line 555 is modeled by `mkCreatedNetwork`: the freshly created
network carries the requested configuration and no connected containers. -/

/-- One mutating collaborator call. -/
inductive Event where
  | disconnect (name : String)
  | remove
  | create
  | connect (name : String)
  deriving DecidableEq, Repr

/-- The manager's mutable state during one pass: the remote network, the
`self.existing_network` snapshot, `results['changed']`, `results['actions']`,
`self.diff_tracker`, and the trace of mutating collaborator calls. -/
structure Sim where
  world : Option Network
  existing : Option Network
  changed : Bool
  actions : List String
  diffTracker : List Difference
  trace : List Event
  deriving DecidableEq, Repr

/-- collaborator model: the network produced by `client.create_network` and
re-inspected at line 555 — the requested configuration, no containers. -/
def mkCreatedNetwork (p : Params) : Network :=
  { driver := p.driver
    options := some p.driver_options
    ipam := none
    enableIPv6 := p.enable_ipv6
    internal := p.internal
    scope := p.scope
    attachable := p.attachable
    containers := some [] }

/-- collaborator model: `client.connect_container_to_network`. -/
def worldConnect (name : String) : Option Network → Option Network
  | none => none
  | some n => some { n with containers := some (n.containers.getD [] ++ [name]) }

/-- collaborator model: `client.disconnect_container_from_network`. -/
def worldDisconnect (name : String) : Option Network → Option Network
  | none => none
  | some n => some { n with containers := some ((n.containers.getD []).filter (· ≠ name)) }

/-- `disconnect_container` (lines 599-606): the collaborator call is skipped
in check mode; the action, changed flag and diff entry are recorded
unconditionally. -/
def disconnect_container (check : Bool) (s : Sim) (name : String) : Sim :=
  let s := if check then s else
    { s with world := worldDisconnect name s.world, trace := s.trace ++ [.disconnect name] }
  { s with actions := s.actions ++ ["Disconnected container " ++ name]
           changed := true
           diffTracker := s.diffTracker ++ [⟨"connected." ++ name, .vBool false, .vBool true⟩] }

/-- the `for cont in containers.values()` loop of lines 596-597. -/
def disconnectSeq (check : Bool) : Sim → List String → Sim
  | s, [] => s
  | s, name :: rest => disconnectSeq check (disconnect_container check s name) rest

/-- `disconnect_all_containers` (lines 592-597): re-inspects the network (a
fresh fetch of the remote state; `NotFound` would escape as an exception)
and disconnects every container in it. -/
def disconnect_all_containers (check : Bool) (s : Sim) : Except Abort Sim :=
  match s.world with
  | none => .error (.crash (.notFound "network"))
  | some net => .ok (disconnectSeq check s (net.containers.getD []))

/-- `remove_network` (lines 559-565). -/
def remove_network (check : Bool) (p : Params) (s : Sim) : Except Abort Sim :=
  if s.existing.isSome then
    match disconnect_all_containers check s with
    | .error e => .error e
    | .ok s =>
      let s := if check then s else
        { s with world := none, trace := s.trace ++ [.remove] }
      .ok { s with actions := s.actions ++ ["Removed network " ++ p.network_name]
                   changed := true }
  else .ok s

/-- `create_network` (lines 516-557): in check mode the collaborator call and
the re-inspect of `self.existing_network` are both skipped. -/
def create_network (check : Bool) (p : Params) (s : Sim) : Sim :=
  if s.existing = none then
    let s := if check then s else
      let nw := mkCreatedNetwork p
      { s with world := some nw, existing := some nw, trace := s.trace ++ [.create] }
    { s with actions := s.actions ++
               ["Created network " ++ p.network_name ++ " with driver " ++ p.driver]
             changed := true }
  else s

/-- `is_container_connected` (lines 567-568), against the raw
`self.existing_network` value: crashes when the snapshot is `None`. -/
def is_container_connected (s : Sim) (name : String) : Except Abort Bool :=
  match container_names_in_network s.existing with
  | .error e => .error (.crash e)
  | .ok names => .ok (name ∈ names)

/-- the `for name in self.parameters.connected` loop of lines 571-579: note
that `self.existing_network` is never refreshed inside the loop. -/
def connectLoop (check : Bool) : Sim → List String → Except Abort Sim
  | s, [] => .ok s
  | s, name :: rest =>
    match is_container_connected s name with
    | .error e => .error e
    | .ok true => connectLoop check s rest
    | .ok false =>
      let s := if check then s else
        { s with world := worldConnect name s.world, trace := s.trace ++ [.connect name] }
      connectLoop check
        { s with actions := s.actions ++ ["Connected container " ++ name]
                 changed := true
                 diffTracker := s.diffTracker ++
                   [⟨"connected." ++ name, .vBool true, .vBool false⟩] } rest

/-- `connect_containers` (lines 570-579). -/
def connect_containers (check : Bool) (p : Params) (s : Sim) : Except Abort Sim :=
  connectLoop check s p.connected

/-- the `for c in containers.values()` loop of lines 587-590. -/
def disconnectMissingSeq (check : Bool) (connected : List String) : Sim → List String → Sim
  | s, [] => s
  | s, name :: rest =>
    disconnectMissingSeq check connected
      (if name ∈ connected then s else disconnect_container check s name) rest

/-- `disconnect_missing` (lines 581-590): iterates the `self.existing_network`
snapshot and disconnects every member whose name is not in `connected`. -/
def disconnect_missing (check : Bool) (p : Params) (s : Sim) : Sim :=
  match s.existing with
  | none => s
  | some net => disconnectMissingSeq check p.connected s (net.containers.getD [])

/-- What one pass hands back to `__init__`: the final state, the
`diff_result['differences']` payload when the verbose block ran, whether
`results.pop('actions')` happened, and the `ansible_facts` value (a final
`get_existing_network()` re-fetch, only in a present pass). -/
structure PassOut where
  sim : Sim
  legacyDiffs : Option (List Difference)
  actionsPopped : Bool
  facts : Option (Option Network)
  deriving DecidableEq, Repr

/-- lines 609-612 of `present`: compare only when a network exists. -/
def compareStep (p : Params) (s : Sim) : Except Abort (Bool × List Difference) :=
  match s.existing with
  | some net => has_different_config p net
  | none => .ok (false, [])

/-- line 614 of `present`: record the `exists` entry in the diff tracker. -/
def presentExistsMark (s : Sim) : Sim :=
  { s with diffTracker := s.diffTracker ++
      [⟨"exists", .vBool true, .vBool s.existing.isSome⟩] }

/-- lines 621-631 of `present`: `disconnect_missing` unless `appends`, the
verbose diff block, and the result assembly (the action log is popped
unless check or debug mode is on). -/
def presentFinish (check diffMode : Bool) (p : Params)
    (differences : List Difference) (s : Sim) : PassOut :=
  let s := if !p.appends then disconnect_missing check p s else s
  let verbose := diffMode || check || p.debug
  let s := if verbose then { s with diffTracker := s.diffTracker ++ differences } else s
  { sim := s
    legacyDiffs := if verbose then some differences else none
    actionsPopped := !check && !p.debug
    facts := some s.world }

/-- lines 614-631 of `present`, after the comparison: record the `exists`
diff entry, recreate when forced or different, create, connect, then
finish. -/
def presentAfterCompare (check diffMode : Bool) (p : Params) (s0 : Sim)
    (different : Bool) (differences : List Difference) : Except Abort PassOut :=
  match (if p.force || different then
           match remove_network check p (presentExistsMark s0) with
           | .error e => .error e
           | .ok s => .ok { s with existing := none }
         else .ok (presentExistsMark s0) : Except Abort Sim) with
  | .error e => .error e
  | .ok s =>
    match connect_containers check p (create_network check p s) with
    | .error e => .error e
    | .ok s => .ok (presentFinish check diffMode p differences s)

/-- `present` (lines 608-631). -/
def present (check diffMode : Bool) (p : Params) (s : Sim) : Except Abort PassOut :=
  match compareStep p s with
  | .error e => .error e
  | .ok (different, differences) =>
    presentAfterCompare check diffMode p s different differences

/-- line 634 of `absent`: record the `exists` entry in the diff tracker. -/
def absentExistsMark (s : Sim) : Sim :=
  { s with diffTracker := s.diffTracker ++
      [⟨"exists", .vBool false, .vBool s.existing.isSome⟩] }

/-- `absent` (lines 633-635). -/
def absent (check : Bool) (p : Params) (s : Sim) : Except Abort PassOut :=
  match remove_network check p (absentExistsMark s) with
  | .error e => .error e
  | .ok s => .ok { sim := s, legacyDiffs := none, actionsPopped := false, facts := none }

/-! ### `__init__` (lines 389-424) -/

/-- The validated module parameters as they enter `TaskParameters`, before
`__init__` rewrites them. -/
structure RawParams where
  network_name : String
  connected : List String
  state : StateParam
  driver : String
  driver_options : List (PyVal × PyVal)
  force : Bool
  appends : Bool
  ipam_driver : Option String
  ipam_options : IpamPoolParam
  ipam_config : Option (List IpamPoolParam)
  enable_ipv6 : Option Bool
  internal : Option Bool
  debug : Bool
  scope : Option String
  attachable : Option Bool
  deriving DecidableEq, Repr

/-- Python truthiness of an optional string (None and "" are falsy). -/
def optStrTruthy : Option String → Bool
  | none => false
  | some s => !(s == "")

/-- Python truthiness of an optional dict (None and {} are falsy). -/
def optDictTruthy : Option (List (String × String)) → Bool
  | none => false
  | some m => !m.isEmpty

/-- lines 405-413 of `__init__`: seed `connected` from the existing network
when it is falsy, promote a truthy `ipam_options` into `ipam_config`, and
normalize a truthy `driver_options`. -/
def initParams (raw : RawParams) (world : Option Network) : Params :=
  { network_name := raw.network_name
    connected :=
      match world with
      | some net => if raw.connected = [] then net.containers.getD [] else raw.connected
      | none => raw.connected
    state := raw.state
    driver := raw.driver
    driver_options :=
      if raw.driver_options = [] then [] else get_driver_options (some raw.driver_options)
    force := raw.force
    appends := raw.appends
    ipam_driver := raw.ipam_driver
    ipam_config :=
      if optStrTruthy raw.ipam_options.subnet || optStrTruthy raw.ipam_options.iprange
          || optStrTruthy raw.ipam_options.gateway || optDictTruthy raw.ipam_options.aux_addresses
      then some [raw.ipam_options] else raw.ipam_config
    enable_ipv6 := raw.enable_ipv6
    internal := raw.internal
    debug := raw.debug
    scope := raw.scope
    attachable := raw.attachable }

/-- The `diff` entry of the results (lines 421-424): the legacy differences
list set by `present`, and whether the before/after pair was rendered
(only with `--diff`). -/
structure DiffOut where
  differences : Option (List Difference)
  beforeAfter : Option (List Difference)
  deriving DecidableEq, Repr

/-- The structured outcome of a completed pass. `actions = none` means the
key was popped from the results. -/
structure RunResult where
  changed : Bool
  actions : Option (List String)
  facts : Option (Option Network)
  diffOut : Option DiffOut
  trace : List Event
  deriving DecidableEq, Repr

/-- The manager's starting state: `self.existing_network` is the fetch of
line 403 against the remote world. -/
def initSim (world : Option Network) : Sim :=
  { world := world, existing := world, changed := false,
    actions := [], diffTracker := [], trace := [] }

/-- One whole reconciliation pass: `DockerNetworkManager.__init__` with
`client.check_mode = check` and `client.module._diff = diffMode`, against a
remote world in which the named network is `world`. -/
def runManager (check diffMode : Bool) (raw : RawParams) (world : Option Network) :
    Except Abort RunResult :=
  let p := initParams raw world
  match (match p.state with
         | .statePresent => present check diffMode p (initSim world)
         | .stateAbsent => absent check p (initSim world)) with
  | .error e => .error e
  | .ok po =>
    .ok { changed := po.sim.changed
          actions := if po.actionsPopped then none else some po.sim.actions
          facts := po.facts
          diffOut :=
            if diffMode || check || p.debug then
              some { differences := po.legacyDiffs
                     beforeAfter := if diffMode then some po.sim.diffTracker else none }
            else none
          trace := po.sim.trace }

/-! ### Claim-side characterizations of the CIDR classifier

These definitions follow the specification's wording ("four dot-separated
1-to-3-digit groups with a `/0`–`/32` prefix length", "hex-colon groups with
a `/0`–`/128` prefix length"), to be compared with the matchers compiled
from the source regexes. A prefix length is read as an ordinary decimal
numeral (no leading zeros). -/

/-- the number denoted by a decimal digit string (`'0'` is ASCII 48). -/
def decimalVal (p : List Char) : Nat :=
  p.foldl (fun a c => a * 10 + (c.toNat - 48)) 0

/-- `p` writes a prefix length between `0` and `bound` in ordinary decimal:
non-empty, digits only, no leading zero, value at most `bound`. -/
def PrefixLenUpTo (bound : Nat) (p : List Char) : Prop :=
  p ≠ [] ∧ (∀ c ∈ p, isDigit c = true) ∧ (2 ≤ p.length → p.headI.toNat ≠ 48)
    ∧ decimalVal p ≤ bound

/-- a 1-to-3-digit group. -/
def QuadOk (g : List Char) : Prop :=
  1 ≤ g.length ∧ g.length ≤ 3 ∧ ∀ c ∈ g, isDigit c = true

/-- four dot-separated 1-to-3-digit groups, `/`, and a prefix length between
0 and `bound`. -/
def ClaimIPv4Core (bound : Nat) (l : List Char) : Prop :=
  ∃ g₁ g₂ g₃ g₄ p,
    l = g₁ ++ '.' :: (g₂ ++ '.' :: (g₃ ++ '.' :: (g₄ ++ '/' :: p)))
    ∧ QuadOk g₁ ∧ QuadOk g₂ ∧ QuadOk g₃ ∧ QuadOk g₄ ∧ PrefixLenUpTo bound p

/-- a non-empty hex-and-colon string, `/`, and a prefix length between 0 and
`bound`. -/
def ClaimIPv6Core (bound : Nat) (l : List Char) : Prop :=
  ∃ b p, l = b ++ '/' :: p ∧ b ≠ [] ∧ (∀ c ∈ b, isHexColon c = true)
    ∧ PrefixLenUpTo bound p

/-- the `$` tolerance of `re.match`: the shape may be followed by one
trailing newline. -/
def TrailingNewlineOpt (core : List Char → Prop) (l : List Char) : Prop :=
  core l ∨ ∃ l₀, l = l₀ ++ ['\n'] ∧ core l₀

/-- claim-side IPv4 CIDR shape. -/
def ClaimIPv4 (bound : Nat) (l : List Char) : Prop :=
  TrailingNewlineOpt (ClaimIPv4Core bound) l

/-- claim-side IPv6 CIDR shape. -/
def ClaimIPv6 (bound : Nat) (l : List Char) : Prop :=
  TrailingNewlineOpt (ClaimIPv6Core bound) l

/-- claim side (C5): a desired spec with every compared field unspecified:
falsy driver, empty driver options, unset IPAM driver, no (or an empty)
pool list, and `None` for the four scalar flags. -/
def UnspecifiedParams (p : Params) : Prop :=
  p.driver = "" ∧ p.driver_options = [] ∧ p.ipam_driver = none
    ∧ (p.ipam_config = none ∨ p.ipam_config = some []) ∧ p.enable_ipv6 = none
    ∧ p.internal = none ∧ p.scope = none ∧ p.attachable = none

/-! ### Concrete instances used to instantiate the theorems -/

/-- an `ipam_config` entry with all four suboptions `None`. -/
def emptyPoolParam : IpamPoolParam :=
  { subnet := none, iprange := none, gateway := none, aux_addresses := none }

/-- module defaults: state `present`, driver `bridge`, empty everything. -/
def rawBase : RawParams :=
  { network_name := "net1", connected := [], state := .statePresent, driver := "bridge",
    driver_options := [], force := false, appends := false, ipam_driver := none,
    ipam_options := emptyPoolParam, ipam_config := none, enable_ipv6 := none,
    internal := none, debug := false, scope := none, attachable := none }

/-- an existing bridge network with one connected container. -/
def netBase : Network :=
  { driver := "bridge", options := none, ipam := none, enableIPv6 := none,
    internal := none, scope := none, attachable := none, containers := some ["c1"] }

/-- a `Params` value with every compared field unspecified. -/
def unspecParams : Params :=
  { network_name := "net1", connected := [], state := .statePresent, driver := "",
    driver_options := [], force := false, appends := false, ipam_driver := none,
    ipam_config := none, enable_ipv6 := none, internal := none, debug := false,
    scope := none, attachable := none }

/-- desired params whose single IPAM pool has no subnet (but an iprange). -/
def pMissingSubnet : Params :=
  { unspecParams with
      driver := "bridge"
      ipam_config := some [{ emptyPoolParam with iprange := some "10.0.0.0/26" }] }

/-- an observed network that does have one IPAM pool. -/
def netWithPool : Network :=
  { netBase with
    ipam := some { driver := "default", config := some [[("Subnet", .jstr "10.0.0.0/24")]] } }

/-- two observed IPv4 pools (same IP family). -/
def obsPoolA : ObservedPool := [("Subnet", .jstr "10.0.0.0/24"), ("Gateway", .jstr "10.0.0.1")]

/-- the second observed IPv4 pool. -/
def obsPoolB : ObservedPool := [("Subnet", .jstr "10.1.0.0/24")]

/-! ## Theorems -/

/-! ### The CIDR matchers against the claim-side characterizations -/

lemma decimalVal_foldl (a : Nat) (p : List Char) :
    p.foldl (fun a c => a * 10 + (c.toNat - 48)) a = a * 10 ^ p.length + decimalVal p := by
  induction p generalizing a with
  | nil => simp [decimalVal]
  | cons c t ih =>
    simp only [List.foldl_cons, List.length_cons, decimalVal]
    rw [ih, ih (0 * 10 + (c.toNat - 48))]
    ring

lemma decimalVal_cons (c : Char) (t : List Char) :
    decimalVal (c :: t) = (c.toNat - 48) * 10 ^ t.length + decimalVal t := by
  have h : decimalVal (c :: t)
      = t.foldl (fun a c => a * 10 + (c.toNat - 48)) (0 * 10 + (c.toNat - 48)) := rfl
  rw [h, decimalVal_foldl]
  ring

lemma decimalVal_head_lower (c : Char) (t : List Char) (h : 49 ≤ c.toNat) :
    10 ^ t.length ≤ decimalVal (c :: t) := by
  rw [decimalVal_cons]
  have h1 : 1 ≤ c.toNat - 48 := by omega
  calc 10 ^ t.length = 1 * 10 ^ t.length := by ring
    _ ≤ (c.toNat - 48) * 10 ^ t.length := Nat.mul_le_mul_right _ h1
    _ ≤ (c.toNat - 48) * 10 ^ t.length + decimalVal t := Nat.le_add_right _ _

lemma prefix32_iff (p : List Char) : prefix32 p = true ↔ PrefixLenUpTo 32 p := by
  match p with
  | [] => simp [prefix32, PrefixLenUpTo]
  | [c] =>
    simp only [prefix32, PrefixLenUpTo, isDigit, ne_eq, List.mem_singleton,
      forall_eq, List.length_singleton, decimalVal, List.foldl_cons, List.foldl_nil,
      Bool.and_eq_true, decide_eq_true_eq]
    constructor
    · rintro ⟨h1, h2⟩
      refine ⟨by simp, ⟨h1, h2⟩, by omega, by omega⟩
    · rintro ⟨-, h, -, -⟩
      exact h
  | [c₁, c₂] =>
    simp only [prefix32, PrefixLenUpTo, isDigit, ne_eq, List.mem_cons,
      List.not_mem_nil, or_false, List.length_cons, List.length_nil, decimalVal,
      List.foldl_cons, List.foldl_nil, Bool.or_eq_true, Bool.and_eq_true,
      decide_eq_true_eq, beq_iff_eq, List.headI]
    constructor
    · rintro (⟨⟨ha, hb⟩, hc, hd⟩ | ⟨ha, hb, hc⟩) <;>
        exact ⟨by simp, by rintro x (rfl | rfl) <;> omega, by omega, by omega⟩
    · rintro ⟨-, hdig, hlead, hval⟩
      have h1 := hdig c₁ (Or.inl rfl)
      have h2 := hdig c₂ (Or.inr rfl)
      omega
  | c₁ :: c₂ :: c₃ :: t =>
    constructor
    · intro h
      simp [prefix32] at h
    · rintro ⟨-, hdig, hlead, hval⟩
      exfalso
      have h1 := hdig c₁ (List.mem_cons_self _ _)
      simp only [isDigit, Bool.and_eq_true, decide_eq_true_eq] at h1
      simp only [List.length_cons, List.headI] at hlead
      have hge : 49 ≤ c₁.toNat := by
        have := hlead (by omega)
        omega
      have hlow := decimalVal_head_lower c₁ (c₂ :: c₃ :: t) hge
      have hpow : 10 ^ 2 ≤ 10 ^ (c₂ :: c₃ :: t).length := by
        apply Nat.pow_le_pow_right <;> simp
      simp only [List.length_cons] at hpow hlow
      omega

lemma prefix129_iff (p : List Char) : prefix129 p = true ↔ PrefixLenUpTo 129 p := by
  match p with
  | [] => simp [prefix129, PrefixLenUpTo]
  | [c] =>
    simp only [prefix129, PrefixLenUpTo, isDigit, ne_eq, List.mem_singleton,
      forall_eq, List.length_singleton, decimalVal, List.foldl_cons, List.foldl_nil,
      Bool.and_eq_true, decide_eq_true_eq]
    constructor
    · rintro ⟨h1, h2⟩
      exact ⟨by simp, ⟨h1, h2⟩, by omega, by omega⟩
    · rintro ⟨-, h, -, -⟩
      exact h
  | [c₁, c₂] =>
    simp only [prefix129, PrefixLenUpTo, isDigit, ne_eq, List.mem_cons,
      List.not_mem_nil, or_false, List.length_cons, List.length_nil, decimalVal,
      List.foldl_cons, List.foldl_nil, Bool.and_eq_true, decide_eq_true_eq, List.headI]
    constructor
    · rintro ⟨⟨ha, hb⟩, hc, hd⟩
      exact ⟨by simp, by rintro x (rfl | rfl) <;> omega, by omega, by omega⟩
    · rintro ⟨-, hdig, hlead, hval⟩
      have h1 := hdig c₁ (Or.inl rfl)
      have h2 := hdig c₂ (Or.inr rfl)
      omega
  | [c₁, c₂, c₃] =>
    simp only [prefix129, PrefixLenUpTo, isDigit, ne_eq, List.mem_cons,
      List.not_mem_nil, or_false, List.length_cons, List.length_nil, decimalVal,
      List.foldl_cons, List.foldl_nil, Bool.and_eq_true, decide_eq_true_eq,
      beq_iff_eq, List.headI]
    constructor
    · intro h
      exact ⟨by simp, by rintro x (rfl | rfl | rfl) <;> omega, by omega, by omega⟩
    · rintro ⟨-, hdig, hlead, hval⟩
      have h1 := hdig c₁ (Or.inl rfl)
      have h2 := hdig c₂ (Or.inr (Or.inl rfl))
      have h3 := hdig c₃ (Or.inr (Or.inr rfl))
      omega
  | c₁ :: c₂ :: c₃ :: c₄ :: t =>
    constructor
    · intro h
      simp [prefix129] at h
    · rintro ⟨-, hdig, hlead, hval⟩
      exfalso
      have h1 := hdig c₁ (List.mem_cons_self _ _)
      simp only [isDigit, Bool.and_eq_true, decide_eq_true_eq] at h1
      simp only [List.length_cons, List.headI] at hlead
      have hge : 49 ≤ c₁.toNat := by
        have := hlead (by omega)
        omega
      have hlow := decimalVal_head_lower c₁ (c₂ :: c₃ :: c₄ :: t) hge
      have hpow : 10 ^ 3 ≤ 10 ^ (c₂ :: c₃ :: c₄ :: t).length := by
        apply Nat.pow_le_pow_right <;> simp
      simp only [List.length_cons] at hpow hlow
      omega

lemma takeWhile_all_append {p : Char → Bool} {g r : List Char}
    (hg : ∀ c ∈ g, p c = true) (hr : ∀ c, r.head? = some c → p c = false) :
    (g ++ r).takeWhile p = g ∧ (g ++ r).dropWhile p = r := by
  induction g with
  | nil =>
    cases r with
    | nil => simp
    | cons c t =>
      have hc := hr c rfl
      simp [List.takeWhile_cons, List.dropWhile_cons, hc]
  | cons c g ih =>
    have hc := hg c (List.mem_cons_self _ _)
    have ih2 := ih (fun x hx => hg x (List.mem_cons_of_mem _ hx))
    simp [List.cons_append, List.takeWhile_cons, List.dropWhile_cons, hc, ih2.1, ih2.2]

lemma chompQuad_eq_some {l r : List Char} :
    chompQuad l = some r ↔
      ∃ g, l = g ++ r ∧ QuadOk g ∧ ∀ c, r.head? = some c → isDigit c = false := by
  constructor
  · intro h
    by_cases hc : 1 ≤ (l.takeWhile isDigit).length ∧ (l.takeWhile isDigit).length ≤ 3
    · simp only [chompQuad, hc, and_self, if_true] at h
      obtain rfl : l.dropWhile isDigit = r := by
        injection h
      refine ⟨l.takeWhile isDigit, (List.takeWhile_append_dropWhile _ _).symm,
        ⟨hc.1, hc.2, fun c hcl => List.mem_takeWhile_imp hcl⟩, ?_⟩
      intro c hhead
      have H := List.head?_dropWhile_not isDigit l
      rw [hhead] at H
      exact H
    · simp [chompQuad, hc] at h
  · rintro ⟨g, rfl, ⟨h1, h3, hdigs⟩, hr⟩
    have tw := takeWhile_all_append (p := isDigit) hdigs hr
    simp [chompQuad, tw.1, tw.2, h1, h3]

lemma expect_eq_some {c : Char} {l r : List Char} :
    expect c l = some r ↔ l = c :: r := by
  cases l with
  | nil => simp [expect]
  | cons x t =>
    simp only [expect, List.cons.injEq]
    by_cases hx : x = c
    · subst hx
      simp
    · simp [hx]

lemma matchIPv4Core_iff (l : List Char) :
    matchIPv4Core l = true ↔ ClaimIPv4Core 32 l := by
  constructor
  · intro h
    unfold matchIPv4Core at h
    split at h
    · exact absurd h (by simp)
    case h_2 r heq =>
      split at h
      · exact absurd h (by simp)
      case h_2 pre heq2 =>
        obtain ⟨a₆, hX6, hq4⟩ := Option.bind_eq_some.mp heq
        obtain ⟨a₅, hX5, he3⟩ := Option.bind_eq_some.mp hX6
        obtain ⟨a₄, hX4, hq3⟩ := Option.bind_eq_some.mp hX5
        obtain ⟨a₃, hX3, he2⟩ := Option.bind_eq_some.mp hX4
        obtain ⟨a₂, hX2, hq2⟩ := Option.bind_eq_some.mp hX3
        obtain ⟨a₁, hq1, he1⟩ := Option.bind_eq_some.mp hX2
        obtain ⟨g₁, hdec1, hQ1, hnd1⟩ := chompQuad_eq_some.mp hq1
        obtain rfl := expect_eq_some.mp he1
        obtain ⟨g₂, hdec2, hQ2, hnd2⟩ := chompQuad_eq_some.mp hq2
        obtain rfl := expect_eq_some.mp he2
        obtain ⟨g₃, hdec3, hQ3, hnd3⟩ := chompQuad_eq_some.mp hq3
        obtain rfl := expect_eq_some.mp he3
        obtain ⟨g₄, hdec4, hQ4, hnd4⟩ := chompQuad_eq_some.mp hq4
        obtain rfl := expect_eq_some.mp heq2
        refine ⟨g₁, g₂, g₃, g₄, pre, ?_, hQ1, hQ2, hQ3, hQ4, (prefix32_iff pre).mp h⟩
        rw [hdec1, hdec2, hdec3, hdec4]
  · rintro ⟨g₁, g₂, g₃, g₄, p, rfl, hQ1, hQ2, hQ3, hQ4, hpre⟩
    have hdot : ∀ (xs : List Char) (c : Char),
        ('.' :: xs).head? = some c → isDigit c = false := by
      intro xs c hc
      simp only [List.head?_cons, Option.some.injEq] at hc
      subst hc
      decide
    have hslash : ∀ (xs : List Char) (c : Char),
        ('/' :: xs).head? = some c → isDigit c = false := by
      intro xs c hc
      simp only [List.head?_cons, Option.some.injEq] at hc
      subst hc
      decide
    have hq1 := chompQuad_eq_some.mpr
      ⟨g₁, rfl, hQ1, hdot (g₂ ++ '.' :: (g₃ ++ '.' :: (g₄ ++ '/' :: p)))⟩
    have hq2 := chompQuad_eq_some.mpr
      ⟨g₂, rfl, hQ2, hdot (g₃ ++ '.' :: (g₄ ++ '/' :: p))⟩
    have hq3 := chompQuad_eq_some.mpr ⟨g₃, rfl, hQ3, hdot (g₄ ++ '/' :: p)⟩
    have hq4 := chompQuad_eq_some.mpr ⟨g₄, rfl, hQ4, hslash p⟩
    unfold matchIPv4Core
    rw [hq1]
    simp only [Option.some_bind]
    rw [expect_eq_some.mpr rfl]
    simp only [Option.some_bind]
    rw [hq2]
    simp only [Option.some_bind]
    rw [expect_eq_some.mpr rfl]
    simp only [Option.some_bind]
    rw [hq3]
    simp only [Option.some_bind]
    rw [expect_eq_some.mpr rfl]
    simp only [Option.some_bind]
    rw [hq4]
    simp only [Option.some_bind]
    rw [expect_eq_some.mpr rfl]
    exact (prefix32_iff p).mpr hpre

lemma matchIPv6Core_iff (l : List Char) :
    matchIPv6Core l = true ↔ ClaimIPv6Core 129 l := by
  constructor
  · intro h
    unfold matchIPv6Core at h
    split at h
    case h_1 p heq =>
      have hrest := expect_eq_some.mp heq
      simp only [Bool.and_eq_true, Bool.not_eq_true', List.isEmpty_eq_false] at h
      obtain ⟨h1, h2⟩ := h
      refine ⟨l.takeWhile isHexColon, p, ?_, ?_,
        fun c hc => List.mem_takeWhile_imp hc, (prefix129_iff p).mp h2⟩
      · rw [← hrest]
        exact (List.takeWhile_append_dropWhile _ _).symm
      · intro hnil
        rw [hnil] at h1
        simp at h1
    case h_2 => exact absurd h (by simp)
  · rintro ⟨b, p, rfl, hb, hchars, hpre⟩
    have tw := takeWhile_all_append (p := isHexColon) (r := '/' :: p) hchars
      (by intro c hc
          have h2 : some '/' = some c := hc
          injection h2 with h3
          rw [← h3]
          decide)
    unfold matchIPv6Core
    rw [tw.2, expect_eq_some.mpr rfl, tw.1]
    simp only [Bool.and_eq_true, Bool.not_eq_true', List.isEmpty_eq_false]
    exact ⟨hb, (prefix129_iff p).mpr hpre⟩

lemma dollarMatch_iff {core : List Char → Bool} {Core : List Char → Prop}
    (hiff : ∀ l, core l = true ↔ Core l) (l : List Char) :
    dollarMatch core l = true ↔ TrailingNewlineOpt Core l := by
  unfold dollarMatch TrailingNewlineOpt
  rw [Bool.or_eq_true]
  constructor
  · rintro (h | h)
    · exact Or.inl ((hiff l).mp h)
    · by_cases hl : l.getLast? = some '\n'
      · rw [if_pos hl] at h
        refine Or.inr ⟨l.dropLast, ?_, (hiff _).mp h⟩
        exact (List.dropLast_append_getLast? '\n' (Option.mem_def.mpr hl)).symm
      · rw [if_neg hl] at h
        exact absurd h (by simp)
  · rintro (h | ⟨l₀, rfl, h⟩)
    · exact Or.inl ((hiff l).mpr h)
    · right
      rw [if_pos (List.getLast?_concat l₀), List.dropLast_concat]
      exact (hiff l₀).mpr h

lemma get_ip_version_ipv4_iff (s : String) :
    get_ip_version (some s) = .ok "ipv4" ↔ ClaimIPv4 32 s.data := by
  have hm := dollarMatch_iff matchIPv4Core_iff s.data
  simp only [get_ip_version]
  split_ifs with h4 h6
  · exact iff_of_true rfl (hm.mp h4)
  · exact iff_of_false (by simp) (fun hc => h4 (hm.mpr hc))
  · exact iff_of_false (by simp) (fun hc => h4 (hm.mpr hc))

lemma get_ip_version_ipv6_aux (s : String) :
    get_ip_version (some s) = .ok "ipv6"
      ↔ (¬ ClaimIPv4 32 s.data ∧ ClaimIPv6 129 s.data) := by
  have hm4 := dollarMatch_iff matchIPv4Core_iff s.data
  have hm6 := dollarMatch_iff matchIPv6Core_iff s.data
  simp only [get_ip_version]
  split_ifs with h4 h6
  · exact iff_of_false (by simp) (fun hc => hc.1 (hm4.mp h4))
  · exact iff_of_true rfl ⟨fun hc => h4 (hm4.mpr hc), hm6.mp h6⟩
  · refine iff_of_false (by simp) (fun hc => h6 (hm6.mpr hc.2))

lemma get_ip_version_error_iff (s : String) :
    get_ip_version (some s) = .error (.valueError ("\"" ++ s ++ "\" is not a valid CIDR"))
      ↔ (¬ ClaimIPv4 32 s.data ∧ ¬ ClaimIPv6 129 s.data) := by
  have hm4 := dollarMatch_iff matchIPv4Core_iff s.data
  have hm6 := dollarMatch_iff matchIPv6Core_iff s.data
  simp only [get_ip_version]
  split_ifs with h4 h6
  · exact iff_of_false (by simp) (fun hc => hc.1 (hm4.mp h4))
  · exact iff_of_false (by simp) (fun hc => hc.2 (hm6.mp h6))
  · exact iff_of_true rfl ⟨fun hc => h4 (hm4.mpr hc), fun hc => h6 (hm6.mpr hc)⟩

lemma mem_dot_of_claimIPv4Core {b : Nat} {l : List Char} (h : ClaimIPv4Core b l) :
    '.' ∈ l := by
  obtain ⟨g₁, g₂, g₃, g₄, p, rfl, -⟩ := h
  simp

lemma not_mem_dot_of_claimIPv6Core {b : Nat} {l : List Char} (h : ClaimIPv6Core b l) :
    '.' ∉ l := by
  obtain ⟨bb, p, rfl, hne, hchars, hpre⟩ := h
  intro hm
  rcases List.mem_append.mp hm with hm | hm
  · exact absurd (hchars _ hm) (by decide)
  · rcases List.mem_cons.mp hm with h1 | h1
    · exact absurd h1 (by decide)
    · exact absurd (hpre.2.1 _ h1) (by decide)

lemma claimIPv4_claimIPv6_disjoint {l : List Char}
    (h4 : ClaimIPv4 32 l) (h6 : ClaimIPv6 129 l) : False := by
  rcases h4 with h4 | ⟨l₀, rfl, h4⟩ <;> rcases h6 with h6 | ⟨l₁, heq, h6⟩
  · exact not_mem_dot_of_claimIPv6Core h6 (mem_dot_of_claimIPv4Core h4)
  · subst heq
    have hd := mem_dot_of_claimIPv4Core h4
    rcases List.mem_append.mp hd with hm | hm
    · exact not_mem_dot_of_claimIPv6Core h6 hm
    · rcases List.mem_singleton.mp hm with h1
      exact absurd h1 (by decide)
  · exact not_mem_dot_of_claimIPv6Core h6
      (List.mem_append.mpr (Or.inl (mem_dot_of_claimIPv4Core h4)))
  · have hl : l₀ = l₁ := by
      have h2 := congrArg List.dropLast heq
      simpa [List.dropLast_concat] using h2
    subst hl
    exact not_mem_dot_of_claimIPv6Core h6 (mem_dot_of_claimIPv4Core h4)

lemma slash_split_unique {b p b' p' : List Char}
    (hchars : ∀ c ∈ b, isHexColon c = true) (hchars2 : ∀ c ∈ b', isHexColon c = true)
    (heq : b ++ '/' :: p = b' ++ '/' :: p') : b = b' ∧ p = p' := by
  induction b generalizing b' with
  | nil =>
    cases b' with
    | nil => simpa using heq
    | cons x t =>
      simp only [List.nil_append, List.cons_append, List.cons.injEq] at heq
      have hx := hchars2 x (List.mem_cons_self _ _)
      rw [← heq.1] at hx
      exact absurd hx (by decide)
  | cons x t ih =>
    cases b' with
    | nil =>
      simp only [List.cons_append, List.nil_append, List.cons.injEq] at heq
      have hx := hchars x (List.mem_cons_self _ _)
      rw [heq.1] at hx
      exact absurd hx (by decide)
    | cons y u =>
      simp only [List.cons_append, List.cons.injEq] at heq
      obtain ⟨rfl, heq2⟩ := heq
      obtain ⟨h1, h2⟩ := ih (fun c hc => hchars c (List.mem_cons_of_mem _ hc))
        (fun c hc => hchars2 c (List.mem_cons_of_mem _ hc)) heq2
      exact ⟨by rw [h1], h2⟩

lemma not_claimIPv6_128_of_129 : ¬ ClaimIPv6 128 (String.data "::/129") := by
  intro h
  have hdata : String.data "::/129" = [':', ':', '/', '1', '2', '9'] := rfl
  rw [hdata] at h
  rcases h with h | ⟨l₀, heq, h⟩
  · obtain ⟨b, p, heq, hne, hchars, hpre⟩ := h
    have hknown : ([':', ':'] : List Char) ++ '/' :: ['1', '2', '9'] = b ++ '/' :: p := by
      rw [← heq]
      decide
    obtain ⟨hb, hp⟩ := slash_split_unique (by decide) hchars hknown
    rw [← hp] at hpre
    exact absurd hpre.2.2.2 (by decide)
  · have h9 := congrArg List.getLast? heq
    rw [List.getLast?_concat] at h9
    exact absurd h9 (by decide)

/-- **C4, counterexample.** The claim says ipv6 is returned exactly for
hex-and-colon strings with a prefix length between `/0` and `/128`, and that
every other input is the fatal `InvalidCidr` error. But `get_ip_version`
classifies `"::/129"` as ipv6: the compiled IPv6 prefix alternation
`[0-9]|[1-9][0-9]|1[0-2][0-9]` accepts 100–129, not 100–128. `"::/129"`
fits neither the claim's ipv6 shape (prefix ≤ 128) nor its ipv4 shape, so
the claim requires a fatal error there and the code returns ipv6. -/
theorem C4_counterexample_cidr129 :
    get_ip_version (some "::/129") = .ok "ipv6"
      ∧ ¬ ClaimIPv6 128 (String.data "::/129")
      ∧ ¬ ClaimIPv4 32 (String.data "::/129") := by
  refine ⟨rfl, not_claimIPv6_128_of_129, ?_⟩
  intro hc
  have h4 := (get_ip_version_ipv4_iff "::/129").mpr hc
  have base : get_ip_version (some "::/129") = .ok "ipv6" := rfl
  have h5 := base.symm.trans h4
  injection h5 with h6
  exact absurd h6 (by decide)

/-- **C4, amended.** `get_ip_version` returns ipv4 exactly for strings of
four dot-separated 1-to-3-digit groups with a prefix length between `/0`
and `/32`, returns ipv6 exactly for non-empty hex-and-colon strings with a
prefix length between `/0` and `/129` (not `/128`), in both cases
optionally followed by one trailing newline (the `$` of `re.match`), and
fails for every other string with a `ValueError` whose message includes the
offending string; in particular `"10.0.0.0/24"` is ipv4,
`"fdd1:ac8c:0557:7ce1::/64"` is ipv6, and `"not-a-cidr"` is the fatal
error. -/
theorem C4_amended_classifyCidr :
    (∀ s : String,
      (get_ip_version (some s) = .ok "ipv4" ↔ ClaimIPv4 32 s.data)
      ∧ (get_ip_version (some s) = .ok "ipv6" ↔ ClaimIPv6 129 s.data)
      ∧ (get_ip_version (some s)
            = .error (.valueError ("\"" ++ s ++ "\" is not a valid CIDR"))
          ↔ ¬ ClaimIPv4 32 s.data ∧ ¬ ClaimIPv6 129 s.data))
    ∧ get_ip_version (some "10.0.0.0/24") = .ok "ipv4"
    ∧ get_ip_version (some "fdd1:ac8c:0557:7ce1::/64") = .ok "ipv6"
    ∧ get_ip_version (some "not-a-cidr")
        = .error (.valueError "\"not-a-cidr\" is not a valid CIDR") := by
  refine ⟨fun s => ⟨get_ip_version_ipv4_iff s, ?_, get_ip_version_error_iff s⟩,
    rfl, rfl, rfl⟩
  rw [get_ip_version_ipv6_aux s]
  exact ⟨fun h => h.2, fun h6 => ⟨fun h4 => claimIPv4_claimIPv6_disjoint h4 h6, h6⟩⟩

/-! ### Driver-option normalization (C9) -/

lemma keys_dictSet_of_mem {k : String} {v : String} {l : List (String × String)}
    (h : k ∈ l.map Prod.fst) : (dictSet k v l).map Prod.fst = l.map Prod.fst := by
  induction l with
  | nil => simp at h
  | cons kv t ih =>
    obtain ⟨k₀, v₀⟩ := kv
    by_cases hk : k₀ = k
    · subst hk
      simp [dictSet]
    · have h2 : k ∈ t.map Prod.fst := by
        simp only [List.map_cons, List.mem_cons] at h
        rcases h with h | h
        · exact absurd h.symm hk
        · exact h
      simp [dictSet, hk, ih h2]

lemma dictSet_of_not_mem {k : String} {v : String} {l : List (String × String)}
    (h : k ∉ l.map Prod.fst) : dictSet k v l = l ++ [(k, v)] := by
  induction l with
  | nil => simp [dictSet]
  | cons kv t ih =>
    obtain ⟨k₀, v₀⟩ := kv
    simp only [List.map_cons, List.mem_cons, not_or] at h
    have hne : ¬ (k₀ = k) := fun he => h.1 he.symm
    simp [dictSet, hne, ih h.2]

lemma nodup_keys_dictSet {k v : String} {l : List (String × String)}
    (h : (l.map Prod.fst).Nodup) : ((dictSet k v l).map Prod.fst).Nodup := by
  by_cases hm : k ∈ l.map Prod.fst
  · rw [keys_dictSet_of_mem hm]
    exact h
  · rw [dictSet_of_not_mem hm, List.map_append]
    rw [List.nodup_append]
    refine ⟨h, by simp, ?_⟩
    intro a ha hb
    simp only [List.map_cons, List.map_nil, List.mem_singleton] at hb
    subst hb
    exact hm ha

lemma nodup_keys_foldl (raw : List (PyVal × PyVal)) (acc : List (String × String))
    (h : (acc.map Prod.fst).Nodup) :
    ((raw.foldl (fun acc kv => dictSet (pyStr kv.1) (driverOptValue kv.2) acc) acc).map
      Prod.fst).Nodup := by
  induction raw generalizing acc with
  | nil => simpa using h
  | cons kv t ih => exact ih _ (nodup_keys_dictSet h)

lemma nodup_keys_get_driver_options (raw : List (PyVal × PyVal)) :
    ((get_driver_options (some raw)).map Prod.fst).Nodup :=
  nodup_keys_foldl raw [] (by simp)

lemma foldl_dictSet_fresh (l : List (String × String)) (acc : List (String × String))
    (hd : (l.map Prod.fst).Nodup) (hdisj : ∀ k ∈ l.map Prod.fst, k ∉ acc.map Prod.fst) :
    (l.map (fun kv => (PyVal.pystr kv.1, PyVal.pystr kv.2))).foldl
      (fun acc kv => dictSet (pyStr kv.1) (driverOptValue kv.2) acc) acc = acc ++ l := by
  induction l generalizing acc with
  | nil => simp
  | cons kv t ih =>
    obtain ⟨k, v⟩ := kv
    simp only [List.map_cons, List.foldl_cons]
    have hstep : dictSet (pyStr (.pystr k)) (driverOptValue (.pystr v)) acc
        = acc ++ [(k, v)] := by
      have : k ∉ acc.map Prod.fst := hdisj k (by simp)
      simpa [pyStr, driverOptValue] using dictSet_of_not_mem (v := v) this
    rw [hstep]
    rw [ih (acc ++ [(k, v)])]
    · simp
    · simp only [List.map_cons] at hd
      exact hd.of_cons
    · intro x hx
      simp only [List.map_append, List.map_cons, List.map_nil, List.mem_append,
        List.mem_singleton, not_or]
      refine ⟨fun hc => hdisj x (by simp [hx]) hc, ?_⟩
      intro hc
      subst hc
      simp only [List.map_cons] at hd
      exact (List.nodup_cons.mp hd).1 hx

/-- **C9.** Driver-option normalization is idempotent: re-normalizing the
(string-to-string) output of `get_driver_options` yields the same mapping;
the value conversion sends boolean `True`/`False` to the literal strings
`"true"`/`"false"`; and a `None` input yields an empty mapping, not an
error. -/
theorem C9_driver_options_idempotent :
    (∀ raw : List (PyVal × PyVal),
      get_driver_options (some ((get_driver_options (some raw)).map
          (fun kv => (PyVal.pystr kv.1, PyVal.pystr kv.2))))
        = get_driver_options (some raw))
    ∧ driverOptValue (.pybool true) = "true"
    ∧ driverOptValue (.pybool false) = "false"
    ∧ get_driver_options none = [] := by
  refine ⟨?_, rfl, rfl, rfl⟩
  intro raw
  have hnd := nodup_keys_get_driver_options raw
  have h := foldl_dictSet_fresh (get_driver_options (some raw)) [] hnd (by simp)
  simpa [get_driver_options] using h

/-! ### The comparator on unspecified fields (C5) and the missing-subnet
crash (C10), and the IPAM family scan (C8) -/

lemma poolKeyLoop_justified (idx : Nat) (ncfg : ObservedPool)
    (items0 : List (String × Option JVal)) :
    ∀ d ∈ poolKeyLoop idx ncfg items0,
      ∃ key v, (key, some v) ∈ items0
        ∧ d.name = "ipam_config[" ++ toString idx ++ "]." ++ key := by
  induction items0 with
  | nil => simp [poolKeyLoop]
  | cons kv rest ih =>
    obtain ⟨key, oval⟩ := kv
    cases oval with
    | none =>
      intro d hd
      simp only [poolKeyLoop] at hd
      obtain ⟨k, v, hm, hn⟩ := ih d hd
      exact ⟨k, v, List.mem_cons_of_mem _ hm, hn⟩
    | some v =>
      intro d hd
      simp only [poolKeyLoop] at hd
      rcases List.mem_append.mp hd with hd | hd
      · refine ⟨key, v, List.mem_cons_self _ _, ?_⟩
        rcases hf : findCamel key ncfg with _ | nk
        · simp only [hf] at hd
          simp only [List.mem_singleton] at hd
          rw [hd]
        · simp only [hf] at hd
          by_cases hp : pyEqJ nk.2 v = true
          · rw [if_pos hp] at hd
            simp at hd
          · rw [if_neg hp] at hd
            simp only [List.mem_singleton] at hd
            rw [hd]
      · obtain ⟨k, w, hm, hn⟩ := ih d hd
        exact ⟨k, w, List.mem_cons_of_mem _ hm, hn⟩

/-- **C5.** The comparator records a difference for a field only when the
corresponding desired value is set: each comparison block contributes
nothing when its desired field is unspecified (falsy driver, empty driver
options, unset IPAM driver, absent or empty pool list, `None` flags, and
inside a pool every `None`-valued suboption is skipped — every per-key IPAM
difference names a key whose desired value is set); consequently a spec
with all fields unset compares clean against every observed network. -/
theorem C5_unspecified_never_differs (p : Params) (net : Network) :
    (p.driver = "" → driverDiff p net = [])
    ∧ (p.driver_options = [] → driverOptionsDiffs p net = [])
    ∧ (p.ipam_driver = none → ipamDriverDiff p net = [])
    ∧ ((p.ipam_config = none ∨ p.ipam_config = some []) → ipamConfigDiffs p net = .ok [])
    ∧ (p.enable_ipv6 = none → enableIPv6Diff p net = [])
    ∧ (p.internal = none → internalDiff p net = [])
    ∧ (p.scope = none → scopeDiff p net = [])
    ∧ (p.attachable = none → attachableDiff p net = [])
    ∧ (∀ idx pool ncfg, ∀ d ∈ poolKeyDiffs idx pool ncfg,
        ∃ key v, (key, some v) ∈ poolItems pool
          ∧ d.name = "ipam_config[" ++ toString idx ++ "]." ++ key)
    ∧ (UnspecifiedParams p → has_different_config p net = .ok (false, [])) := by
  refine ⟨?_, ?_, ?_, ?_, ?_, ?_, ?_, ?_, ?_, ?_⟩
  · intro h
    simp [driverDiff, h]
  · intro h
    simp [driverOptionsDiffs, h]
  · intro h
    simp [ipamDriverDiff, h]
  · rintro (h | h) <;> simp [ipamConfigDiffs, h]
  · intro h
    simp [enableIPv6Diff, h]
  · intro h
    simp [internalDiff, h]
  · intro h
    simp [scopeDiff, h]
  · intro h
    simp [attachableDiff, h]
  · intro idx pool ncfg
    exact poolKeyLoop_justified idx ncfg (poolItems pool)
  · rintro ⟨h1, h2, h3, h4, h5, h6, h7, h8⟩
    have hipam : ipamConfigDiffs p net = .ok [] := by
      rcases h4 with h | h <;> simp [ipamConfigDiffs, h]
    unfold has_different_config
    rw [hipam]
    simp [driverDiff, driverOptionsDiffs, ipamDriverDiff, enableIPv6Diff,
      internalDiff, scopeDiff, attachableDiff, h1, h2, h3, h5, h6, h7, h8]

/-- C5 at a concrete input: the all-unset spec compares clean against the
sample observed network. -/
theorem C5_witness :
    UnspecifiedParams unspecParams
      ∧ has_different_config unspecParams netBase = .ok (false, []) := by
  have hu : UnspecifiedParams unspecParams :=
    ⟨rfl, rfl, rfl, Or.inl rfl, rfl, rfl, rfl, rfl⟩
  exact ⟨hu, (C5_unspecified_never_differs unspecParams netBase).2.2.2.2.2.2.2.2.2 hu⟩

/-- **C10.** When the observed network has at least one IPAM pool and a
desired pool's `subnet` is `None` (regardless of its other fields), the
comparator feeds `None` into `get_ip_version`, where `re.match` raises a
`TypeError` — which the `except ValueError` handler does not catch — so the
pass crashes instead of skipping the pool or failing cleanly. -/
theorem C10_missing_subnet_crashes (p : Params) (net : Network)
    (pool0 : IpamPoolParam) (rest : List IpamPoolParam) (ip : Ipam)
    (op : ObservedPool) (ops : List ObservedPool)
    (hcfg : p.ipam_config = some (pool0 :: rest))
    (hsub : pool0.subnet = none)
    (hipam : net.ipam = some ip)
    (hconf : ip.config = some (op :: ops)) :
    has_different_config p net
      = .error (.crash (.typeError "expected string or bytes-like object")) := by
  unfold has_different_config ipamConfigDiffs
  simp [hcfg, hipam, hconf, hsub, ipamPoolsLoop, scanPool, get_ip_version, liftTryErr]

/-- C10 at a concrete input. -/
theorem C10_witness :
    has_different_config pMissingSubnet netWithPool
      = .error (.crash (.typeError "expected string or bytes-like object")) :=
  C10_missing_subnet_crashes pMissingSubnet netWithPool
    { emptyPoolParam with iprange := some "10.0.0.0/26" } [] _ _ [] rfl rfl rfl rfl

lemma scanLoop_last (v : String) (pools : List ObservedPool) (cur : ObservedPool)
    (hok : ∀ op ∈ pools, ∃ f, obsSubnetVersion op = .ok f) :
    scanLoop v cur pools
      = .ok ((pools.filter (fun op => obsSubnetVersion op == .ok v)).getLastD cur) := by
  induction pools generalizing cur with
  | nil => simp [scanLoop]
  | cons op rest ih =>
    obtain ⟨f, hf⟩ := hok op (List.mem_cons_self _ _)
    have hrest : ∀ q ∈ rest, ∃ g, obsSubnetVersion q = .ok g :=
      fun q hq => hok q (List.mem_cons_of_mem _ hq)
    simp only [scanLoop, hf]
    by_cases hv : v = f
    · subst hv
      have hpred : (obsSubnetVersion op == Except.ok v) = true := by
        rw [hf]
        simp
      rw [if_pos rfl, ih op hrest, List.filter_cons, if_pos hpred, List.getLastD_cons]
    · have hpred : (obsSubnetVersion op == Except.ok v) = false := by
        rw [hf]
        simp only [beq_eq_false_iff_ne, ne_eq, Except.ok.injEq]
        exact fun he => hv he.symm
      rw [if_neg hv, ih cur hrest, List.filter_cons, if_neg (by simp [hpred])]

/-- **C8.** When a desired pool's subnet classifies as family `v` and more
than one observed pool is of family `v`, the scan of lines 473-475 selects
the last observed pool of that family for the field-by-field comparison. -/
theorem C8_last_family_match_wins (sub : Option String) (v : String)
    (obsPools : List ObservedPool)
    (hv : get_ip_version sub = .ok v)
    (hok : ∀ op ∈ obsPools, ∃ f, obsSubnetVersion op = .ok f)
    (hmulti : 2 ≤ (obsPools.filter (fun op => obsSubnetVersion op == .ok v)).length) :
    ∃ m, (obsPools.filter (fun op => obsSubnetVersion op == .ok v)).getLast? = some m
      ∧ scanPool sub obsPools = .ok m := by
  have h := scanLoop_last v obsPools [] hok
  have hne : obsPools.filter (fun op => obsSubnetVersion op == .ok v) ≠ [] := by
    intro h0
    rw [h0] at hmulti
    simp at hmulti
  refine ⟨(obsPools.filter (fun op => obsSubnetVersion op == .ok v)).getLast hne,
    List.getLast?_eq_getLast _ hne, ?_⟩
  have hshape : scanPool sub obsPools = scanLoop v [] obsPools := by
    unfold scanPool
    rw [hv]
  rw [hshape, h]
  congr 1
  rw [List.getLastD_eq_getLast?, List.getLast?_eq_getLast _ hne]
  rfl

/-- C8 at a concrete input: with two observed IPv4 pools, the second (last)
one is matched. -/
theorem C8_witness :
    ∃ m, ([obsPoolA, obsPoolB].filter
            (fun op => obsSubnetVersion op == Except.ok "ipv4")).getLast? = some m
      ∧ scanPool (some "192.168.0.0/16") [obsPoolA, obsPoolB] = .ok m := by
  apply C8_last_family_match_wins (some "192.168.0.0/16") "ipv4" [obsPoolA, obsPoolB] rfl
  · intro op hop
    rcases List.mem_cons.mp hop with rfl | hop
    · exact ⟨"ipv4", rfl⟩
    · rcases List.mem_singleton.mp hop with rfl
      exact ⟨"ipv4", rfl⟩
  · decide

/-! ### Trace structure of the present pass (C1, C2, C7) -/

lemma disconnect_container_false (s : Sim) (name : String) :
    (disconnect_container false s name).trace = s.trace ++ [.disconnect name]
    ∧ (disconnect_container false s name).existing = s.existing := by
  simp [disconnect_container]

lemma disconnectSeq_false (names : List String) (s : Sim) :
    (disconnectSeq false s names).trace = s.trace ++ names.map .disconnect
    ∧ (disconnectSeq false s names).existing = s.existing := by
  induction names generalizing s with
  | nil => simp [disconnectSeq]
  | cons n rest ih =>
    have h1 := disconnect_container_false s n
    have h2 := ih (disconnect_container false s n)
    simp only [disconnectSeq, List.map_cons]
    constructor
    · rw [h2.1, h1.1]
      simp
    · rw [h2.2, h1.2]

lemma remove_network_false (p : Params) (s : Sim) (net : Network)
    (hw : s.world = some net) (he : s.existing.isSome = true) :
    ∃ s', remove_network false p s = .ok s'
      ∧ s'.trace = s.trace ++ (net.containers.getD []).map .disconnect ++ [.remove]
      ∧ s'.existing = s.existing ∧ s'.world = none := by
  unfold remove_network disconnect_all_containers
  rw [if_pos he, hw]
  refine ⟨_, rfl, ?_, ?_, ?_⟩
  · simp [(disconnectSeq_false (net.containers.getD []) s).1]
  · simp [(disconnectSeq_false (net.containers.getD []) s).2]
  · simp

lemma create_network_false_none (p : Params) (s : Sim) (he : s.existing = none) :
    (create_network false p s).trace = s.trace ++ [.create]
    ∧ (create_network false p s).existing = some (mkCreatedNetwork p)
    ∧ (create_network false p s).world = some (mkCreatedNetwork p) := by
  unfold create_network
  rw [if_pos he]
  simp

lemma create_network_of_some (check : Bool) (p : Params) (s : Sim)
    (he : s.existing.isSome = true) : create_network check p s = s := by
  unfold create_network
  rw [if_neg (by simp [Option.isSome_iff_ne_none] at he; exact he)]

lemma is_container_connected_of_some (s : Sim) (n : Network) (name : String)
    (hs : s.existing = some n) :
    is_container_connected s name = .ok (decide (name ∈ n.containers.getD [])) := by
  simp [is_container_connected, container_names_in_network, hs]

lemma connectLoop_false (l : List String) (s : Sim) (n : Network)
    (hs : s.existing = some n) :
    ∃ s', connectLoop false s l = .ok s'
      ∧ s'.existing = some n
      ∧ s'.trace = s.trace
          ++ (l.filter (fun x => decide (x ∉ n.containers.getD []))).map .connect := by
  induction l generalizing s with
  | nil => exact ⟨s, rfl, hs, by simp⟩
  | cons name rest ih =>
    have hic := is_container_connected_of_some s n name hs
    by_cases hm : name ∈ n.containers.getD []
    · have hdec : decide (name ∈ n.containers.getD []) = true := by simp [hm]
      rw [show connectLoop false s (name :: rest) = connectLoop false s rest from by
        simp [connectLoop, hic, hdec]]
      obtain ⟨s', h1, h2, h3⟩ := ih s hs
      refine ⟨s', h1, h2, ?_⟩
      rw [h3]
      congr 1
      simp [List.filter_cons, hm]
    · have hdec : decide (name ∈ n.containers.getD []) = false := by simp [hm]
      have hstep : connectLoop false s (name :: rest)
          = connectLoop false
              { s with world := worldConnect name s.world
                       trace := s.trace ++ [.connect name]
                       actions := s.actions ++ ["Connected container " ++ name]
                       changed := true
                       diffTracker := s.diffTracker ++
                         [⟨"connected." ++ name, .vBool true, .vBool false⟩] } rest := by
        simp [connectLoop, hic, hdec]
      rw [hstep]
      obtain ⟨s', h1, h2, h3⟩ := ih
        { s with world := worldConnect name s.world
                 trace := s.trace ++ [.connect name]
                 actions := s.actions ++ ["Connected container " ++ name]
                 changed := true
                 diffTracker := s.diffTracker ++
                   [⟨"connected." ++ name, .vBool true, .vBool false⟩] }
        (by simpa using hs)
      refine ⟨s', h1, h2, ?_⟩
      rw [h3]
      simp [List.filter_cons, hm]

lemma disconnectMissingSeq_false (connected names : List String) (s : Sim) :
    (disconnectMissingSeq false connected s names).trace
      = s.trace ++ (names.filter (fun x => decide (x ∉ connected))).map .disconnect
    ∧ (disconnectMissingSeq false connected s names).existing = s.existing := by
  induction names generalizing s with
  | nil => simp [disconnectMissingSeq]
  | cons name rest ih =>
    by_cases hm : name ∈ connected
    · simp only [disconnectMissingSeq, if_pos hm]
      have h := ih s
      constructor
      · rw [h.1]
        congr 1
        simp [List.filter_cons, hm]
      · exact h.2
    · simp only [disconnectMissingSeq, if_neg hm]
      have h1 := disconnect_container_false s name
      have h2 := ih (disconnect_container false s name)
      constructor
      · rw [h2.1, h1.1]
        simp [List.filter_cons, hm]
      · rw [h2.2, h1.2]

lemma presentFinish_sim_trace (check dm : Bool) (p : Params)
    (diffs : List Difference) (s : Sim) :
    (presentFinish check dm p diffs s).sim.trace
      = (if (!p.appends) = true then disconnect_missing check p s else s).trace := by
  simp only [presentFinish, apply_ite Sim.trace, ite_self]

lemma presentAfterCompare_recreate (p : Params) (dm : Bool) (d : Bool)
    (diffs : List Difference) (s : Sim) (net : Network)
    (hw : s.world = some net) (hs : s.existing = some net)
    (hrec : (p.force || d) = true) :
    ∃ po, presentAfterCompare false dm p s d diffs = .ok po
      ∧ po.sim.trace = s.trace ++ (net.containers.getD []).map .disconnect
          ++ [.remove, .create] ++ p.connected.map .connect := by
  simp only [presentAfterCompare]
  rw [if_pos hrec]
  obtain ⟨s₂, hrm, htr2, hex2, hw2⟩ := remove_network_false p (presentExistsMark s) net
    (by simp [presentExistsMark, hw]) (by simp [presentExistsMark, hs])
  rw [hrm]
  have h3 := create_network_false_none p { s₂ with existing := none } rfl
  obtain ⟨s₄, hcl, hex4, htr4⟩ := connectLoop_false p.connected
    (create_network false p { s₂ with existing := none }) (mkCreatedNetwork p) h3.2.1
  simp only [connect_containers]
  rw [hcl]
  have hdm : disconnect_missing false p s₄ = s₄ := by
    simp [disconnect_missing, hex4, mkCreatedNetwork, disconnectMissingSeq]
  refine ⟨_, rfl, ?_⟩
  rw [presentFinish_sim_trace, hdm, ite_self]
  rw [htr4, h3.1, htr2]
  simp [presentExistsMark, mkCreatedNetwork]

lemma presentAfterCompare_norecreate (p : Params) (dm : Bool)
    (diffs : List Difference) (s : Sim) (net : Network)
    (hs : s.existing = some net) (hforce : (p.force || false) = false) :
    ∃ po, presentAfterCompare false dm p s false diffs = .ok po
      ∧ po.sim.trace = s.trace
          ++ (p.connected.filter (fun x => decide (x ∉ net.containers.getD []))).map .connect
          ++ (if p.appends = true then []
              else ((net.containers.getD []).filter
                     (fun x => decide (x ∉ p.connected))).map .disconnect) := by
  simp only [presentAfterCompare]
  rw [if_neg (by simp [hforce] : ¬ ((p.force || false) = true))]
  simp only [connect_containers]
  rw [create_network_of_some false p _ (by simp [presentExistsMark, hs])]
  obtain ⟨s₄, hcl, hex4, htr4⟩ := connectLoop_false p.connected (presentExistsMark s) net
    (by simp [presentExistsMark, hs])
  rw [hcl]
  refine ⟨_, rfl, ?_⟩
  rw [presentFinish_sim_trace]
  by_cases hap : p.appends = true
  · rw [if_neg (by simp [hap])]
    rw [htr4]
    simp [presentExistsMark, hap]
  · have hap3 : p.appends = false := by
      cases hp : p.appends
      · rfl
      · exact absurd hp hap
    have hdm := disconnectMissingSeq_false p.connected (net.containers.getD []) s₄
    have hdm2 : disconnect_missing false p s₄
        = disconnectMissingSeq false p.connected s₄ (net.containers.getD []) := by
      simp [disconnect_missing, hex4]
    rw [if_pos (by simp [hap3]), hdm2, hdm.1, htr4]
    simp [presentExistsMark, hap3]

lemma initParams_state (raw : RawParams) (world : Option Network) :
    (initParams raw world).state = raw.state := rfl

lemma initParams_force (raw : RawParams) (world : Option Network) :
    (initParams raw world).force = raw.force := rfl

lemma initParams_debug (raw : RawParams) (world : Option Network) :
    (initParams raw world).debug = raw.debug := rfl

lemma initParams_appends (raw : RawParams) (world : Option Network) :
    (initParams raw world).appends = raw.appends := rfl

lemma runManager_ok_of_present (check dm : Bool) (raw : RawParams)
    (world : Option Network) (po : PassOut)
    (hstate : raw.state = .statePresent)
    (hp : present check dm (initParams raw world) (initSim world) = .ok po) :
    ∃ res, runManager check dm raw world = .ok res
      ∧ res.trace = po.sim.trace
      ∧ res.changed = po.sim.changed
      ∧ res.actions = (if po.actionsPopped then none else some po.sim.actions) := by
  simp only [runManager, initParams_state, hstate, hp]
  exact ⟨_, rfl, rfl, rfl, rfl⟩

lemma present_of_compare (dm : Bool) (p : Params) (s : Sim) (d : Bool)
    (diffs : List Difference) (hcmp : compareStep p s = .ok (d, diffs)) :
    present false dm p s = presentAfterCompare false dm p s d diffs := by
  unfold present
  rw [hcmp]

/-- **C1.** In a real (non-check) present pass on an existing network where
recreation is triggered (force set, or the comparator reports differences),
the collaborator calls are: one disconnect per currently connected member,
then the delete, then the create, then one connect per desired member —
disconnect-before-delete, delete-before-create, create-before-connect. -/
theorem C1_recreate_ordering (raw : RawParams) (net : Network) (dm : Bool)
    (d : Bool) (diffs : List Difference)
    (hstate : raw.state = .statePresent)
    (hd : has_different_config (initParams raw (some net)) net = .ok (d, diffs))
    (hrec : raw.force = true ∨ d = true) :
    ∃ res, runManager false dm raw (some net) = .ok res
      ∧ res.trace = (net.containers.getD []).map .disconnect
          ++ [.remove, .create]
          ++ (initParams raw (some net)).connected.map .connect := by
  have hcmp : compareStep (initParams raw (some net)) (initSim (some net))
      = .ok (d, diffs) := by
    simp [compareStep, initSim, hd]
  have hrec2 : ((initParams raw (some net)).force || d) = true := by
    rw [initParams_force]
    rcases hrec with h | h <;> simp [h]
  obtain ⟨po, hpo, htr⟩ := presentAfterCompare_recreate (initParams raw (some net))
    dm d diffs (initSim (some net)) net rfl rfl hrec2
  have hpres : present false dm (initParams raw (some net)) (initSim (some net))
      = .ok po := by
    rw [present_of_compare dm _ _ d diffs hcmp]
    exact hpo
  obtain ⟨res, hres, htr2, -, -⟩ :=
    runManager_ok_of_present false dm raw (some net) po hstate hpres
  refine ⟨res, hres, ?_⟩
  rw [htr2, htr]
  simp [initSim]

/-- C1 at a concrete input: forced recreation of a bridge network with one
connected container. -/
theorem C1_witness :
    ∃ res, runManager false false { rawBase with force := true } (some netBase) = .ok res
      ∧ res.trace = (netBase.containers.getD []).map .disconnect
          ++ [.remove, .create]
          ++ (initParams { rawBase with force := true } (some netBase)).connected.map
               .connect :=
  C1_recreate_ordering { rawBase with force := true } netBase false false [] rfl rfl
    (Or.inl rfl)

/-- **C2.** In a real present pass with no recreation (force unset,
comparator clean), the membership plan satisfies: every connect call is for
a desired member not currently connected, every disconnect call is for an
observed member absent from the desired list, and in additive (`appends`)
mode no member is ever disconnected. -/
theorem C2_membership_plan (raw : RawParams) (net : Network) (dm : Bool)
    (diffs : List Difference)
    (hstate : raw.state = .statePresent)
    (hforce : raw.force = false)
    (hd : has_different_config (initParams raw (some net)) net = .ok (false, diffs)) :
    ∃ res, runManager false dm raw (some net) = .ok res
      ∧ (∀ x, Event.connect x ∈ res.trace →
          x ∈ (initParams raw (some net)).connected ∧ x ∉ net.containers.getD [])
      ∧ (∀ x, Event.disconnect x ∈ res.trace →
          x ∈ net.containers.getD [] ∧ x ∉ (initParams raw (some net)).connected)
      ∧ (raw.appends = true → ∀ x, Event.disconnect x ∉ res.trace) := by
  have hcmp : compareStep (initParams raw (some net)) (initSim (some net))
      = .ok (false, diffs) := by
    simp [compareStep, initSim, hd]
  have hforce2 : ((initParams raw (some net)).force || false) = false := by
    rw [initParams_force]
    simp [hforce]
  obtain ⟨po, hpo, htr⟩ := presentAfterCompare_norecreate (initParams raw (some net))
    dm diffs (initSim (some net)) net rfl hforce2
  have hpres : present false dm (initParams raw (some net)) (initSim (some net))
      = .ok po := by
    rw [present_of_compare dm _ _ false diffs hcmp]
    exact hpo
  obtain ⟨res, hres, htr2, -, -⟩ :=
    runManager_ok_of_present false dm raw (some net) po hstate hpres
  have htrace : res.trace
      = ((initParams raw (some net)).connected.filter
          (fun x => decide (x ∉ net.containers.getD []))).map .connect
        ++ (if (initParams raw (some net)).appends = true then []
            else ((net.containers.getD []).filter
                   (fun x => decide (x ∉ (initParams raw (some net)).connected))).map
                 .disconnect) := by
    rw [htr2, htr]
    simp [initSim]
  refine ⟨res, hres, ?_, ?_, ?_⟩
  · intro x hx
    rw [htrace] at hx
    rcases List.mem_append.mp hx with hx | hx
    · obtain ⟨y, hy, hey⟩ := List.mem_map.mp hx
      injection hey with hey
      subst hey
      have h2 := List.mem_filter.mp hy
      refine ⟨h2.1, ?_⟩
      have := h2.2
      simpa using this
    · by_cases hap : (initParams raw (some net)).appends = true
      · rw [if_pos hap] at hx
        simp at hx
      · rw [if_neg hap] at hx
        obtain ⟨y, hy, hey⟩ := List.mem_map.mp hx
        exact absurd hey (by simp)
  · intro x hx
    rw [htrace] at hx
    rcases List.mem_append.mp hx with hx | hx
    · obtain ⟨y, hy, hey⟩ := List.mem_map.mp hx
      exact absurd hey (by simp)
    · by_cases hap : (initParams raw (some net)).appends = true
      · rw [if_pos hap] at hx
        simp at hx
      · rw [if_neg hap] at hx
        obtain ⟨y, hy, hey⟩ := List.mem_map.mp hx
        injection hey with hey
        subst hey
        have h2 := List.mem_filter.mp hy
        refine ⟨h2.1, ?_⟩
        have := h2.2
        simpa using this
  · intro hap x hx
    rw [htrace] at hx
    rcases List.mem_append.mp hx with hx | hx
    · obtain ⟨y, hy, hey⟩ := List.mem_map.mp hx
      exact absurd hey (by simp)
    · rw [if_pos (by rw [initParams_appends, hap])] at hx
      simp at hx

/-- C2 at a concrete input: desired members `["a", "c1"]` against observed
membership `["c1"]`. -/
theorem C2_witness :
    ∃ res, runManager false false { rawBase with connected := ["a", "c1"] }
        (some netBase) = .ok res
      ∧ (∀ x, Event.connect x ∈ res.trace →
          x ∈ (initParams { rawBase with connected := ["a", "c1"] } (some netBase)).connected
            ∧ x ∉ netBase.containers.getD [])
      ∧ (∀ x, Event.disconnect x ∈ res.trace →
          x ∈ netBase.containers.getD []
            ∧ x ∉ (initParams { rawBase with connected := ["a", "c1"] }
                     (some netBase)).connected)
      ∧ (({ rawBase with connected := ["a", "c1"] } : RawParams).appends = true →
          ∀ x, Event.disconnect x ∉ res.trace) :=
  C2_membership_plan { rawBase with connected := ["a", "c1"] } netBase false [] rfl rfl rfl

/-- **C7.** When the desired member list is empty and the network exists,
`__init__` seeds it with the network's current membership before any
comparison or action; consequently a no-recreation pass makes no membership
change at all (no collaborator call is issued). -/
theorem C7_connected_seeding (raw : RawParams) (net : Network) (dm : Bool)
    (diffs : List Difference)
    (hconn : raw.connected = [])
    (hstate : raw.state = .statePresent)
    (hforce : raw.force = false)
    (hd : has_different_config (initParams raw (some net)) net = .ok (false, diffs)) :
    (initParams raw (some net)).connected = net.containers.getD []
    ∧ ∃ res, runManager false dm raw (some net) = .ok res ∧ res.trace = [] := by
  have hseed : (initParams raw (some net)).connected = net.containers.getD [] := by
    simp [initParams, hconn]
  refine ⟨hseed, ?_⟩
  have hcmp : compareStep (initParams raw (some net)) (initSim (some net))
      = .ok (false, diffs) := by
    simp [compareStep, initSim, hd]
  have hforce2 : ((initParams raw (some net)).force || false) = false := by
    rw [initParams_force]
    simp [hforce]
  obtain ⟨po, hpo, htr⟩ := presentAfterCompare_norecreate (initParams raw (some net))
    dm diffs (initSim (some net)) net rfl hforce2
  have hpres : present false dm (initParams raw (some net)) (initSim (some net))
      = .ok po := by
    rw [present_of_compare dm _ _ false diffs hcmp]
    exact hpo
  obtain ⟨res, hres, htr2, -, -⟩ :=
    runManager_ok_of_present false dm raw (some net) po hstate hpres
  refine ⟨res, hres, ?_⟩
  rw [htr2, htr, hseed]
  have hfil : (net.containers.getD []).filter
      (fun x => decide (x ∉ net.containers.getD [])) = [] := by
    rw [List.filter_eq_nil_iff]
    intro a ha
    simp [ha]
  rw [hfil]
  simp [initSim]

/-- C7 at a concrete input: no `connected` list given, existing network with
one container, nothing to change. -/
theorem C7_witness :
    (initParams rawBase (some netBase)).connected = netBase.containers.getD []
    ∧ ∃ res, runManager false false rawBase (some netBase) = .ok res
        ∧ res.trace = [] :=
  C7_connected_seeding rawBase netBase false [] rfl rfl rfl rfl

/-! ### Check mode (C3) and action-log retention (C6) -/

/-- **C3.** On a forced recreation of an existing network with a connected
member, check mode does not compute the same actions as a real run: the
real run decides disconnect, remove, create, connect and completes with
`changed`, while the check-mode run crashes with a `TypeError` — after the
(skipped) removal `self.existing_network` is `None` and check mode skips
the re-creation and its re-inspect, so `connect_containers` subscripts
`None` inside `container_names_in_network`. -/
theorem C3_check_mode_crash :
    runManager true false { rawBase with force := true } (some netBase)
      = .error (.crash (.typeError "NoneType object is not subscriptable"))
    ∧ ∃ res, runManager false false { rawBase with force := true } (some netBase)
        = .ok res
        ∧ res.trace = [.disconnect "c1", .remove, .create, .connect "c1"]
        ∧ res.changed = true := by
  exact ⟨rfl, ⟨_, rfl, rfl, rfl⟩⟩

lemma presentAfterCompare_actionsPopped (check dm : Bool) (p : Params) (s : Sim)
    (d : Bool) (diffs : List Difference) (po : PassOut)
    (h : presentAfterCompare check dm p s d diffs = .ok po) :
    po.actionsPopped = (!check && !p.debug) := by
  unfold presentAfterCompare at h
  repeat' split at h
  all_goals first
    | (injection h with h2
       subst h2
       rfl)
    | injection h

lemma present_actionsPopped (check dm : Bool) (p : Params) (s : Sim) (po : PassOut)
    (h : present check dm p s = .ok po) :
    po.actionsPopped = (!check && !p.debug) := by
  unfold present at h
  split at h
  · exact absurd h (by simp)
  · exact presentAfterCompare_actionsPopped _ _ _ _ _ _ _ h

lemma absent_actionsPopped (check : Bool) (p : Params) (s : Sim) (po : PassOut)
    (h : absent check p s = .ok po) : po.actionsPopped = false := by
  unfold absent at h
  split at h
  · injection h
  · injection h with h2
    subst h2
    rfl

/-- **C6, counterexample.** The claim says `actions` is present in the result
exactly when diff, check, or debug mode was requested, for both states. But
a present pass with only diff mode requested still pops `actions` (line 628
tests only check and debug), and an absent pass never pops it at all
(`absent` has no pop). -/
theorem C6_counterexample_actions :
    (∃ res, runManager false true rawBase (some netBase) = .ok res
        ∧ res.actions = none)
    ∧ (∃ res, runManager false false { rawBase with state := .stateAbsent } (some netBase)
          = .ok res ∧ res.actions.isSome = true) := by
  exact ⟨⟨_, rfl, rfl⟩, ⟨_, rfl, rfl⟩⟩

/-- **C6, amended.** In every completed pass, the `actions` field is retained
exactly when check or debug mode was requested for a present pass — diff
mode alone does not retain it — and is always retained for an absent
pass. -/
theorem C6_amended_actions_retention (check dm : Bool) (raw : RawParams)
    (world : Option Network) (res : RunResult)
    (hok : runManager check dm raw world = .ok res) :
    (raw.state = .statePresent → res.actions.isSome = (check || raw.debug))
    ∧ (raw.state = .stateAbsent → res.actions.isSome = true) := by
  constructor
  · intro hstate
    simp only [runManager, initParams_state, hstate] at hok
    split at hok
    · exact absurd hok (by simp)
    case h_2 po hpo =>
      have hpop := present_actionsPopped check dm _ _ po hpo
      injection hok with h2
      rw [← h2]
      have hdbg : (initParams raw world).debug = raw.debug := rfl
      cases check <;> cases hdb : raw.debug <;> simp [hpop, hdbg, hdb]
  · intro hstate
    simp only [runManager, initParams_state, hstate] at hok
    split at hok
    · exact absurd hok (by simp)
    case h_2 po hpo =>
      have hpop := absent_actionsPopped check _ _ po hpo
      injection hok with h2
      rw [← h2]
      simp [hpop]

/-- C6 amended, at a concrete input: a check-mode present pass retains the
action log. -/
theorem C6_witness :
    ∃ res, runManager true false rawBase (some netBase) = .ok res
      ∧ res.actions.isSome = (true || rawBase.debug) := by
  obtain ⟨res, hres⟩ : ∃ res, runManager true false rawBase (some netBase) = .ok res :=
    ⟨_, rfl⟩
  exact ⟨res, hres,
    (C6_amended_actions_retention true false rawBase (some netBase) res hres).1 rfl⟩

end DockerNetwork
